import Mathlib

/-
Verification of the netcp wire protocol and transfer loops (src/main.rs).

Bytes are modelled as natural numbers below 256, byte sequences as
List Nat.  The TCP stream is modelled as the list of bytes a peer reads
from it (input direction) or the list of bytes it emits (output
direction).  Error calls in the program (fn error, which prints and
exits the process) are modelled by an explicit ErrMsg value.
-/

namespace Netcp

/-- Idle timeout in milliseconds, src/main.rs line 12: const TIMEOUT: i64 = 800. -/
def TIMEOUT : Int := 800

/-- The 8 ASCII bytes of MSG_AGREE, the string AGREE padded with three spaces to 8 bytes (line 8). -/
def MSG_AGREE : List Nat := [65, 71, 82, 69, 69, 32, 32, 32]

/-- The 8 ASCII bytes of MSG_DISAGREE, the string DISAGREE (line 9). -/
def MSG_DISAGREE : List Nat := [68, 73, 83, 65, 71, 82, 69, 69]

/-- The 4 ASCII bytes of MSG_FILE, the string FILE (line 10). -/
def MSG_FILE : List Nat := [70, 73, 76, 69]

/-- The 4 ASCII bytes of MSG_END, the string END followed by a space (line 11). -/
def MSG_END : List Nat := [69, 78, 68, 32]

/-- The diagnostic messages passed to fn error (line 54), which prints and
exits the process.  Each constructor stands for one message string of the
source: connectionLost for Connection lost, connectionTimeout for
Connection lost (timeout), invalidProtocol for Invalid protocol,
noServerFound for No server found, utf8Error for the message printed when
bytes could not be converted to a UTF-8 string. -/
inductive ErrMsg where
  | connectionLost
  | connectionTimeout
  | invalidProtocol
  | noServerFound
  | utf8Error
deriving DecidableEq, Repr

/-- fn compare_byte_array (lines 155-167): false if the lengths differ,
otherwise compare the two slices index by index. -/
def compare_byte_array (a b : List Nat) : Bool :=
  if a.length ≠ b.length then false
  else (List.range a.length).all fun i => a.getD i 0 == b.getD i 0

/-- fn check_agreement (lines 138-153), applied to the 8 bytes it reads from
the stream: MSG_AGREE maps to true, MSG_DISAGREE to false, anything else
calls error with Invalid protocol. -/
def check_agreement (v : List Nat) : Except ErrMsg Bool :=
  if compare_byte_array v MSG_AGREE then .ok true
  else if compare_byte_array v MSG_DISAGREE then .ok false
  else .error .invalidProtocol

/-- The three outcomes of the marker dispatch at the top of the receiver
loop (lines 322-327). -/
inductive MarkerCase where
  | isEnd
  | isFile
  | isBad
deriving DecidableEq, Repr

/-- The receiver loop marker dispatch (lines 322-327): break on MSG_END,
error Invalid protocol when the marker is not MSG_FILE, otherwise fall
through to the per-file handling. -/
def classify_marker (m : List Nat) : MarkerCase :=
  if compare_byte_array m MSG_END then .isEnd
  else if compare_byte_array m MSG_FILE = false then .isBad
  else .isFile

/-- fn send_u64 (lines 107-111): the value num.to_le() is reinterpreted as 8
bytes and written out, which puts the little-endian bytes of num on the
wire on every host (to_le byte-swaps exactly on big-endian hosts, undoing
the native store order). -/
def send_u64 (num : Nat) : List Nat :=
  [num % 256, num / 256 % 256, num / 256 ^ 2 % 256, num / 256 ^ 3 % 256,
   num / 256 ^ 4 % 256, num / 256 ^ 5 % 256, num / 256 ^ 6 % 256,
   num / 256 ^ 7 % 256]

/-- fn receive_u64 (lines 113-117), applied to the 8 bytes it reads: the
bytes land in memory, and u64::from_le makes the result the little-endian
value of those bytes on every host. -/
def receive_u64 (b : List Nat) : Nat :=
  match b with
  | [b0, b1, b2, b3, b4, b5, b6, b7] =>
      b0 + b1 * 256 + b2 * 256 ^ 2 + b3 * 256 ^ 3 + b4 * 256 ^ 4 +
        b5 * 256 ^ 5 + b6 * 256 ^ 6 + b7 * 256 ^ 7
  | _ => 0

/-- Reading exactly n bytes from the front of an input stream.  When the
stream holds fewer than n bytes the read cannot complete (in the program
the call blocks inside receive_data; see the timed model further down),
which is returned as none. -/
def readBytes (n : Nat) (input : List Nat) : Option (List Nat × List Nat) :=
  if n ≤ input.length then some (input.take n, input.drop n) else none

/-- fn send_string (lines 119-123): the byte length as send_u64, then the
raw UTF-8 bytes, no terminator.  The string argument is its UTF-8 byte
sequence. -/
def send_string (s : List Nat) : List Nat :=
  send_u64 s.length ++ s

/-- fn receive_string (lines 125-136): read 8 bytes, decode the length,
read that many bytes, then run String::from_utf8 on them; on failure call
error.  UTF-8 validity checking lives in the Rust standard library, so it
enters the model as the parameter valid; from_utf8 returns the input bytes
unchanged when they are valid.  Returns the outcome and the rest of the
input stream, or none when the stream ran short. -/
def receive_string (valid : List Nat → Bool) (input : List Nat) :
    Option (Except ErrMsg (List Nat) × List Nat) :=
  match readBytes 8 input with
  | none => none
  | some (szb, r1) =>
    match readBytes (receive_u64 szb) r1 with
    | none => none
    | some (body, r2) =>
      if valid body then some (.ok body, r2) else some (.error .utf8Error, r2)

/-- Wrapping u64 subtraction: the value of the Rust expression a - b on u64
operands a, b below 2 to the 64 (release-profile two-complement wrap). -/
def sub64 (a b : Nat) : Nat :=
  (a + (2 ^ 64 - b)) % 2 ^ 64

/-- The sender chunked transfer loop (lines 269-285), returning the bytes it
writes to the stream.  content is the file contents, i the loop counter.
The loop guard is i < filesize - 1 on u64, hence sub64 filesize 1; the
inner subtraction filesize - i never underflows on the states the loop
reaches from i = 0, so plain Nat subtraction models it. -/
def send_file_loop (content : List Nat) (filesize : Nat) (i : Nat) : List Nat :=
  if h : i < sub64 filesize 1 then
    if 512 ≤ filesize - i then
      (content.drop i).take 512 ++ send_file_loop content filesize (i + 512)
    else
      (content.drop i).take (filesize - i) ++
        send_file_loop content filesize (sub64 filesize 1)
  else []
termination_by sub64 filesize 1 - i
decreasing_by all_goals omega

/-- The receiver chunked transfer loop (lines 348-364), returning the total
number of payload bytes it reads from the stream and writes to the file;
same guard and chunking as send_file_loop. -/
def receive_file_loop (filesize : Nat) (i : Nat) : Nat :=
  if h : i < sub64 filesize 1 then
    if 512 ≤ filesize - i then
      512 + receive_file_loop filesize (i + 512)
    else
      (filesize - i) + receive_file_loop filesize (sub64 filesize 1)
  else 0
termination_by sub64 filesize 1 - i
decreasing_by all_goals omega

/-- One read or write attempt on the stream as the timed loops see it:
the clock value when the loop guard is evaluated, the clock value right
after the transfer (used when the progress timer is reset), and the
result of the attempt (none for an I/O error, some k for k bytes). -/
structure Attempt where
  guardTime : Int
  doneTime : Int
  result : Option Nat
deriving DecidableEq, Repr

/-- Outcome of a timed transfer call: ok when the buffer was transferred in
full, connectionLost when an attempt returned an I/O error,
timeout for the Connection lost (timeout) branch, and looping when the
supplied attempt schedule ended with the loop guard still true, that is
the call is still blocked inside the loop. -/
inductive IOResult where
  | ok
  | connectionLost
  | timeout
  | looping
deriving DecidableEq, Repr

/-- The loop of fn receive_data (lines 59-81) over a schedule of attempts.
begin is the last-progress clock value, received the byte count so far.
The guard is received < len and begin - now < TIMEOUT, in that order; on a
nonzero transfer begin is reset to the clock after the transfer.  After
the loop, received < len raises the timeout error.  Returns the outcome
and the unconsumed schedule. -/
def receive_data_go (len : Nat) (begin : Int) (received : Nat) :
    List Attempt → IOResult × List Attempt
  | [] => (if received < len then .looping else .ok, [])
  | a :: rest =>
    if received < len then
      if begin - a.guardTime < TIMEOUT then
        match a.result with
        | none => (.connectionLost, rest)
        | some bytes =>
          receive_data_go len (if bytes = 0 then begin else a.doneTime)
            (received + bytes) rest
      else (.timeout, a :: rest)
    else (.ok, a :: rest)

/-- fn receive_data (lines 59-81): start the progress timer at the calling
time and run the loop with 0 bytes received. -/
def receive_data (len : Nat) (start : Int) (attempts : List Attempt) :
    IOResult × List Attempt :=
  receive_data_go len start 0 attempts

/-- The loop of fn send_data (lines 83-105), line for line the same shape
as receive_data_go with write in place of read. -/
def send_data_go (len : Nat) (begin : Int) (sended : Nat) :
    List Attempt → IOResult × List Attempt
  | [] => (if sended < len then .looping else .ok, [])
  | a :: rest =>
    if sended < len then
      if begin - a.guardTime < TIMEOUT then
        match a.result with
        | none => (.connectionLost, rest)
        | some bytes =>
          send_data_go len (if bytes = 0 then begin else a.doneTime)
            (sended + bytes) rest
      else (.timeout, a :: rest)
    else (.ok, a :: rest)

/-- fn send_data (lines 83-105): start the progress timer at the calling
time and run the loop with 0 bytes written. -/
def send_data (len : Nat) (start : Int) (attempts : List Attempt) :
    IOResult × List Attempt :=
  send_data_go len start 0 attempts

/-- Clock sanity of an attempt schedule: times never run backwards.  begin
is at or before the first guard evaluation, each transfer completes at or
after its guard evaluation, and the next guard evaluation is at or after
the previous completion. -/
def timesOrdered (begin : Int) : List Attempt → Prop
  | [] => True
  | a :: rest => begin ≤ a.guardTime ∧ a.guardTime ≤ a.doneTime ∧
      timesOrdered a.doneTime rest

/-- One file as the sender offers it (lines 236-288): the size read by
get_filesize, the basename bytes sent by send_string, and the file
contents read by the transfer loop. -/
structure OfferedFile where
  filesize : Nat
  name : List Nat
  content : List Nat

/-- The wire bytes one iteration of the sender file loop emits (lines
236-288): the FILE marker, the size, the name, then the payload chunks if
check_agreement returned true and nothing if it returned false (the
continue branch, line 263). -/
def send_one_file (f : OfferedFile) (agree : Bool) : List Nat :=
  MSG_FILE ++ send_u64 f.filesize ++ send_string f.name ++
    (if agree then send_file_loop f.content f.filesize 0 else [])

/-- The wire bytes the sender emits from the file loop to the end of fn
send (lines 236-292): each file paired with the agreement answer
check_agreement decoded for it, then MSG_END (line 291). -/
def send_session (files : List (OfferedFile × Bool)) : List Nat :=
  match files with
  | [] => MSG_END
  | (f, a) :: rest => send_one_file f a ++ send_session rest

/-- How a receiver session run ends: done after MSG_END, fatal when fn
error was called with the given message, blocked when the modelled input
stream ran short while a read was pending (with the broken timeout of
receive_data the process then stays in the read loop). -/
inductive SessionEnd where
  | done
  | fatal (msg : ErrMsg)
  | blocked
deriving DecidableEq, Repr

/-- What one pass of the receiver main loop body decides: stop carries the
result of leaving the loop (or of error aborting the process), next
carries the state for the following iteration. -/
inductive LoopStep where
  | stop (result : List (List Nat × List Nat) × SessionEnd × List Nat)
  | next (input : List Nat) (acc : List (List Nat × List Nat))

/-- One iteration of the receiver main loop (lines 319-366) over the input
byte stream.  valid is the UTF-8 check of receive_string, createOk tells
for which file names File::create succeeds (the filesystem is an external
collaborator).  acc collects the files fully received so far, newest
first, as name and content pairs.  Read a 4-byte marker and dispatch on
classify_marker; on MSG_FILE read the size and the name, then either skip
the payload after a failed create (the DISAGREE branch, lines 334-338) or
consume the receive_file_loop payload bytes and record the file.  The
stop results carry the files received in order, how the run ended, and
the unread rest of the input.  The agreement tokens the receiver itself
writes are not part of the input stream and are omitted. -/
def receive_iteration (valid createOk : List Nat → Bool) (input : List Nat)
    (acc : List (List Nat × List Nat)) : LoopStep :=
  match readBytes 4 input with
  | none => .stop (acc.reverse, .blocked, input)
  | some (m, r1) =>
    match classify_marker m with
    | .isEnd => .stop (acc.reverse, .done, r1)
    | .isBad => .stop (acc.reverse, .fatal .invalidProtocol, r1)
    | .isFile =>
      match readBytes 8 r1 with
      | none => .stop (acc.reverse, .blocked, r1)
      | some (szb, r2) =>
        match receive_string valid r2 with
        | none => .stop (acc.reverse, .blocked, r2)
        | some (.error e, r3) => .stop (acc.reverse, .fatal e, r3)
        | some (.ok fname, r3) =>
          if createOk fname = false then .next r3 acc
          else
            match readBytes (receive_file_loop (receive_u64 szb) 0) r3 with
            | none => .stop (acc.reverse, .blocked, r3)
            | some (dataBytes, r4) => .next r4 ((fname, dataBytes) :: acc)

def receive_loop_go (valid createOk : List Nat → Bool) :
    Nat → List Nat → List (List Nat × List Nat) →
      List (List Nat × List Nat) × SessionEnd × List Nat
  | 0, input, acc => (acc.reverse, .blocked, input)
  | fuel + 1, input, acc =>
    match receive_iteration valid createOk input acc with
    | .stop r => r
    | .next input2 acc2 => receive_loop_go valid createOk fuel input2 acc2

/-- The receiver main loop entered with enough iterations for its input:
every iteration that continues looping consumes at least the 4 marker
bytes of the stream, so input.length + 1 iterations can never run out
before the input does (receive_loop_go_fuel below makes this exact), and
the bound only serves to make the recursion structural. -/
def receive_loop (valid createOk : List Nat → Bool) (input : List Nat)
    (acc : List (List Nat × List Nat)) :
    List (List Nat × List Nat) × SessionEnd × List Nat :=
  receive_loop_go valid createOk (input.length + 1) input acc

/-- fn receive up to the main loop (lines 294-315): connect, send the
callsign, then read one agreement token; a false answer calls error with
No server found, and a true answer enters the main loop.  The input list
is the byte stream the receiver reads. -/
def receive_session (valid createOk : List Nat → Bool) (input : List Nat) :
    List (List Nat × List Nat) × SessionEnd × List Nat :=
  match readBytes 8 input with
  | none => ([], .blocked, input)
  | some (ans, rest) =>
    match check_agreement ans with
    | .error e => ([], .fatal e, rest)
    | .ok false => ([], .fatal .noServerFound, rest)
    | .ok true => receive_loop valid createOk rest []

/-- compare_byte_array decides list equality: it returns true exactly on
equal byte sequences. -/
theorem compare_byte_array_iff (a b : List Nat) :
    compare_byte_array a b = true ↔ a = b := by
  unfold compare_byte_array
  split
  · rename_i hne
    simp only [Bool.false_eq_true, false_iff]
    intro h; subst h; exact hne rfl
  · rename_i hlen
    rw [not_ne_iff] at hlen
    simp only [List.all_eq_true, List.mem_range, beq_iff_eq]
    constructor
    · intro h
      refine List.ext_getElem hlen ?_
      intro i h1 h2
      have hi := h i h1
      rwa [List.getD_eq_getElem a 0 h1, List.getD_eq_getElem b 0 h2] at hi
    · rintro rfl i hi; rfl

/-- Reading n bytes from a stream that starts with an n-byte block returns
exactly that block and the rest. -/
theorem readBytes_append (b r : List Nat) (n : Nat) (h : b.length = n) :
    readBytes n (b ++ r) = some (b, r) := by
  subst h
  unfold readBytes
  rw [if_pos (by simp)]
  simp

/-- send_u64 always emits exactly 8 bytes. -/
theorem send_u64_length (v : Nat) : (send_u64 v).length = 8 := by
  simp [send_u64]

/-- Little-endian round trip of the u64 codec. -/
theorem u64_roundtrip (v : Nat) (h : v < 2 ^ 64) :
    receive_u64 (send_u64 v) = v := by
  simp only [send_u64, receive_u64]
  norm_num
  omega

/-- C3: for every u64 value v, receiving the exact 8 bytes produced by
sending v yields v again, an exact little-endian round trip holding for
all values below 2 to the 64; the wire bytes are little-endian on every
host, so the law does not depend on native byte order. -/
theorem c3_u64_roundtrip (v : Nat) (h : v < 2 ^ 64) :
    receive_u64 (send_u64 v) = v :=
  u64_roundtrip v h

/-- Witness for c3_u64_roundtrip at a concrete value with 8 distinct bytes. -/
theorem c3_u64_roundtrip_witness :
    81985529216486895 < 2 ^ 64 ∧
      receive_u64 (send_u64 81985529216486895) = 81985529216486895 :=
  ⟨by norm_num, c3_u64_roundtrip 81985529216486895 (by norm_num)⟩

/-- C5: check_agreement answers true exactly on the canonical MSG_AGREE
bytes, false exactly on the canonical MSG_DISAGREE bytes, and fails with
the invalid-protocol error on every other byte sequence; and the
underlying comparison returns false outright whenever the lengths differ,
so sequences of different lengths never compare equal. -/
theorem c5_agreement_cases :
    (∀ v : List Nat,
      (check_agreement v = .ok true ↔ v = MSG_AGREE) ∧
      (check_agreement v = .ok false ↔ v = MSG_DISAGREE) ∧
      (v ≠ MSG_AGREE → v ≠ MSG_DISAGREE →
        check_agreement v = .error .invalidProtocol)) ∧
    ∀ a b : List Nat, a.length ≠ b.length → compare_byte_array a b = false := by
  constructor
  · intro v
    have hA := compare_byte_array_iff v MSG_AGREE
    have hD := compare_byte_array_iff v MSG_DISAGREE
    unfold check_agreement
    split_ifs with h1 h2
    · have hv := hA.mp h1
      subst hv
      refine ⟨by simp, by simp [MSG_AGREE, MSG_DISAGREE], fun hne _ => absurd rfl hne⟩
    · have hv := hD.mp h2
      subst hv
      refine ⟨by simp [MSG_AGREE, MSG_DISAGREE], by simp, fun _ hne => absurd rfl hne⟩
    · have hvA : v ≠ MSG_AGREE := fun h => h1 (hA.mpr h)
      have hvD : v ≠ MSG_DISAGREE := fun h => h2 (hD.mpr h)
      exact ⟨by simpa using hvA, by simpa using hvD, fun _ _ => rfl⟩
  · intro a b h
    unfold compare_byte_array
    rw [if_pos h]

/-- Witness for c5_agreement_cases: eight zero bytes are rejected as an
invalid protocol, and byte sequences of different lengths never compare
equal. -/
theorem c5_agreement_cases_witness :
    check_agreement [0, 0, 0, 0, 0, 0, 0, 0] = .error .invalidProtocol ∧
      compare_byte_array [65] [65, 71] = false :=
  ⟨(c5_agreement_cases.1 _).2.2 (by decide) (by decide),
   c5_agreement_cases.2 [65] [65, 71] (by decide)⟩

/-- C4: for every byte sequence that the UTF-8 check accepts, including the
empty one, receiving the bytes produced by send_string, an 8-byte
little-endian length followed by the raw bytes and no terminator,
reproduces the sequence exactly and leaves the rest of the stream
untouched. -/
theorem c4_string_roundtrip (valid : List Nat → Bool) (s extra : List Nat)
    (hlen : s.length < 2 ^ 64) (hv : valid s = true) :
    receive_string valid (send_string s ++ extra) = some (.ok s, extra) := by
  have h1 : readBytes 8 (send_u64 s.length ++ (s ++ extra)) =
      some (send_u64 s.length, s ++ extra) :=
    readBytes_append _ _ _ (send_u64_length s.length)
  have h2 : readBytes s.length (s ++ extra) = some (s, extra) :=
    readBytes_append _ _ _ rfl
  simp [send_string, receive_string, List.append_assoc, h1,
    u64_roundtrip s.length hlen, h2, hv]

/-- Witness for c4_string_roundtrip on the two-byte ASCII sequence hi with
one trailing stream byte. -/
theorem c4_string_roundtrip_witness :
    ([104, 105] : List Nat).length < 2 ^ 64 ∧
      (fun _ : List Nat => true) [104, 105] = true ∧
      receive_string (fun _ => true) (send_string [104, 105] ++ [7]) =
        some (.ok [104, 105], [7]) :=
  ⟨by norm_num, rfl,
   c4_string_roundtrip (fun _ => true) [104, 105] [7] (by norm_num) rfl⟩

/-- C8: when receive_string reads a length prefix and that many bytes and
the UTF-8 check rejects them, it fails with the conversion error, and
receive_string never returns a byte sequence the check rejects, so
malformed input is neither substituted nor truncated into a result. -/
theorem c8_utf8_reject :
    (∀ (valid : List Nat → Bool) (body extra : List Nat),
      body.length < 2 ^ 64 → valid body = false →
      receive_string valid (send_u64 body.length ++ body ++ extra) =
        some (.error .utf8Error, extra)) ∧
    ∀ (valid : List Nat → Bool) (input r rest : List Nat),
      receive_string valid input = some (.ok r, rest) → valid r = true := by
  constructor
  · intro valid body extra hlen hv
    have h1 : readBytes 8 (send_u64 body.length ++ (body ++ extra)) =
        some (send_u64 body.length, body ++ extra) :=
      readBytes_append _ _ _ (send_u64_length _)
    have h2 : readBytes body.length (body ++ extra) = some (body, extra) :=
      readBytes_append _ _ _ rfl
    simp [receive_string, List.append_assoc, h1,
      u64_roundtrip body.length hlen, h2, hv]
  · intro valid input r rest h
    simp only [receive_string] at h
    split at h
    · simp at h
    · split at h
      · simp at h
      · split at h
        · rename_i hvb
          simp only [Option.some.injEq, Prod.mk.injEq, Except.ok.injEq] at h
          obtain ⟨hb, -⟩ := h
          rw [← hb]; exact hvb
        · simp at h

/-- Witness for c8_utf8_reject: a validator rejecting everything makes the
one-byte body fail with the conversion error. -/
theorem c8_utf8_reject_witness :
    ([255] : List Nat).length < 2 ^ 64 ∧
      (fun _ : List Nat => false) [255] = false ∧
      receive_string (fun _ => false)
          (send_u64 ([255] : List Nat).length ++ [255] ++ []) =
        some (.error .utf8Error, []) :=
  ⟨by norm_num, rfl, c8_utf8_reject.1 (fun _ => false) [255] [] (by norm_num) rfl⟩

/-- A clock-sane schedule stays clock-sane when the starting point moves
earlier. -/
theorem timesOrdered_mono {t t' : Int} (h : t' ≤ t) :
    ∀ l : List Attempt, timesOrdered t l → timesOrdered t' l
  | [] => fun _ => trivial
  | _ :: _ => fun hl => ⟨le_trans h hl.1, hl.2.1, hl.2.2⟩

/-- On any schedule whose clock never runs backwards, the receive_data loop
can never reach its timeout branch: the guard compares begin - now with
TIMEOUT, and begin - now is never positive, so the guard always passes. -/
theorem receive_data_go_no_timeout :
    ∀ (attempts : List Attempt) (len : Nat) (begin : Int) (received : Nat),
      timesOrdered begin attempts →
      (receive_data_go len begin received attempts).1 ≠ .timeout := by
  intro attempts
  induction attempts with
  | nil =>
    intro len begin received _
    simp only [receive_data_go]
    split <;> simp
  | cons a rest ih =>
    intro len begin received h
    obtain ⟨h1, h2, h3⟩ := h
    simp only [receive_data_go]
    split
    · rw [if_pos (show begin - a.guardTime < TIMEOUT by unfold TIMEOUT; omega)]
      cases hres : a.result with
      | none => simp
      | some bytes =>
        apply ih
        by_cases hb : bytes = 0
        · rw [if_pos hb]
          exact timesOrdered_mono (le_trans h1 h2) rest h3
        · rw [if_neg hb]
          exact h3
    · simp

/-- The same fact for the send_data loop. -/
theorem send_data_go_no_timeout :
    ∀ (attempts : List Attempt) (len : Nat) (begin : Int) (sended : Nat),
      timesOrdered begin attempts →
      (send_data_go len begin sended attempts).1 ≠ .timeout := by
  intro attempts
  induction attempts with
  | nil =>
    intro len begin sended _
    simp only [send_data_go]
    split <;> simp
  | cons a rest ih =>
    intro len begin sended h
    obtain ⟨h1, h2, h3⟩ := h
    simp only [send_data_go]
    split
    · rw [if_pos (show begin - a.guardTime < TIMEOUT by unfold TIMEOUT; omega)]
      cases hres : a.result with
      | none => simp
      | some bytes =>
        apply ih
        by_cases hb : bytes = 0
        · rw [if_pos hb]
          exact timesOrdered_mono (le_trans h1 h2) rest h3
        · rw [if_neg hb]
          exact h3
    · simp

/-- C1 is a code bug: the loops compare begin - now, not now - begin, with
TIMEOUT, so the elapsed time they compute is never positive and the
timeout branch is dead code.  Here a 1-byte call starts at time 0 and its
only attempt runs at time 10000, a 10-second stall far beyond the 800 ms
idle window, transferring zero bytes: the call is still inside the loop
(looping) rather than failing with the timeout error the claim and the
spec require.  See also receive_data_go_no_timeout and
send_data_go_no_timeout: the timeout outcome is unreachable under any
forward-running clock. -/
theorem c1_idle_timeout_dead :
    receive_data 1 0 [⟨10000, 10001, some 0⟩] = (.looping, []) ∧
      send_data 1 0 [⟨10000, 10001, some 0⟩] = (.looping, []) ∧
      TIMEOUT < 10000 - 0 := by
  decide

/-- C10: a zero-length buffer makes receive_data and send_data succeed at
once, consuming no attempt from the stream whatever the schedule holds:
no read or write happens, and no timeout or connection error is
possible. -/
theorem c10_empty_buffer :
    ∀ (start : Int) (attempts : List Attempt),
      receive_data 0 start attempts = (.ok, attempts) ∧
      send_data 0 start attempts = (.ok, attempts) := by
  intro t atts
  cases atts <;>
    simp [receive_data, send_data, receive_data_go, send_data_go]

/-- C2 is a code bug: the transfer loops run while i < filesize - 1, so a
file of declared size 1 moves zero payload bytes on both sides (the claim
and the spec require exactly 1), a declared size of 513 moves only 512
bytes, and for size 0 the guard filesize - 1 underflows on u64 (here the
release-profile wrap, under which the loop happens to move 0 bytes). -/
theorem c2_transfer_loop_off_by_one :
    send_file_loop [42] 1 0 = [] ∧ receive_file_loop 1 0 = 0 ∧
      receive_file_loop 513 0 = 512 ∧ receive_file_loop 0 0 = 0 := by
  refine ⟨?_, ?_, ?_, ?_⟩
  · rw [send_file_loop.eq_def]
    norm_num [sub64]
  · rw [receive_file_loop.eq_def]
    norm_num [sub64]
  · rw [receive_file_loop.eq_def]
    norm_num [sub64]
    rw [receive_file_loop.eq_def]
    norm_num [sub64]
  · rw [receive_file_loop.eq_def]
    norm_num [sub64]
    rw [receive_file_loop.eq_def]
    norm_num [sub64]

/-- C6: the receiver loop handles every 4-byte marker by exactly three
cases: the dispatch yields isEnd exactly on MSG_END, isFile exactly on
MSG_FILE, and isBad otherwise; on MSG_END the loop returns normally with
its accumulated files, and on any other 4-byte value that is not MSG_FILE
it aborts with the invalid-protocol error. -/
theorem c6_marker_cases :
    (∀ m : List Nat,
      (classify_marker m = .isEnd ↔ m = MSG_END) ∧
      (classify_marker m = .isFile ↔ m = MSG_FILE) ∧
      (m ≠ MSG_END → m ≠ MSG_FILE → classify_marker m = .isBad)) ∧
    (∀ (valid createOk : List Nat → Bool) (rest : List Nat)
        (acc : List (List Nat × List Nat)),
      receive_loop valid createOk (MSG_END ++ rest) acc =
        (acc.reverse, .done, rest)) ∧
    ∀ (valid createOk : List Nat → Bool) (m rest : List Nat)
        (acc : List (List Nat × List Nat)),
      m.length = 4 → m ≠ MSG_END → m ≠ MSG_FILE →
      receive_loop valid createOk (m ++ rest) acc =
        (acc.reverse, .fatal .invalidProtocol, rest) := by
  refine ⟨?_, ?_, ?_⟩
  · intro m
    have hE := compare_byte_array_iff m MSG_END
    have hF := compare_byte_array_iff m MSG_FILE
    unfold classify_marker
    split_ifs with h1 h2
    · have hv := hE.mp h1
      subst hv
      exact ⟨by simp, by simp [MSG_END, MSG_FILE], fun hne _ => absurd rfl hne⟩
    · have hvE : m ≠ MSG_END := fun h => h1 (hE.mpr h)
      have hvF : m ≠ MSG_FILE := by
        intro h
        rw [hF.mpr h] at h2
        exact Bool.noConfusion h2
      exact ⟨by simpa using hvE, by simpa using hvF, fun _ _ => rfl⟩
    · have hcF : compare_byte_array m MSG_FILE = true := by
        cases hcb : compare_byte_array m MSG_FILE
        · exact absurd hcb h2
        · rfl
      have hv := hF.mp hcF
      subst hv
      have hvE : MSG_FILE ≠ MSG_END := by decide
      exact ⟨by simpa using hvE, by simp, fun _ hne => absurd rfl hne⟩
  · intro valid createOk rest acc
    have hr : readBytes 4 (MSG_END ++ rest) = some (MSG_END, rest) :=
      readBytes_append _ _ _ rfl
    have hc : classify_marker MSG_END = .isEnd := by decide
    have hit : receive_iteration valid createOk (MSG_END ++ rest) acc =
        .stop (acc.reverse, .done, rest) := by
      simp [receive_iteration, hr, hc]
    simp [receive_loop, receive_loop_go, hit]
  · intro valid createOk m rest acc hlen hne hnf
    have hr : readBytes 4 (m ++ rest) = some (m, rest) :=
      readBytes_append _ _ _ hlen
    have hc : classify_marker m = .isBad := by
      unfold classify_marker
      rw [if_neg fun h => hne ((compare_byte_array_iff _ _).mp h), if_pos]
      cases hcb : compare_byte_array m MSG_FILE
      · rfl
      · exact absurd ((compare_byte_array_iff _ _).mp hcb) hnf
    have hit : receive_iteration valid createOk (m ++ rest) acc =
        .stop (acc.reverse, .fatal .invalidProtocol, rest) := by
      simp [receive_iteration, hr, hc]
    simp [receive_loop, receive_loop_go, hit]

/-- A successful readBytes consumes exactly n bytes of the input. -/
theorem readBytes_length (n : Nat) (input b r : List Nat)
    (h : readBytes n input = some (b, r)) : r.length + n = input.length := by
  simp only [readBytes, Option.ite_none_right_eq_some, Option.some.injEq,
    Prod.mk.injEq] at h
  obtain ⟨hn, -, hr⟩ := h
  rw [← hr]
  simp
  omega

/-- A successful receive_string consumes at least its 8 length-prefix bytes
and never produces input that was not there. -/
theorem receive_string_length (valid : List Nat → Bool) (input : List Nat)
    (x : Except ErrMsg (List Nat)) (r : List Nat)
    (h : receive_string valid input = some (x, r)) :
    r.length + 8 ≤ input.length := by
  simp only [receive_string] at h
  split at h
  · exact Option.noConfusion h
  · rename_i szb r1 heq
    have l1 := readBytes_length 8 input szb r1 heq
    split at h
    · exact Option.noConfusion h
    · rename_i body r2 heq2
      have l2 := readBytes_length _ r1 body r2 heq2
      split at h <;>
      · simp only [Option.some.injEq, Prod.mk.injEq] at h
        obtain ⟨-, hr⟩ := h
        subst hr
        omega

/-- An iteration that loops again consumed at least 20 bytes of input:
the 4 marker bytes, the 8 size bytes, and the 8 length-prefix bytes of
the file name. -/
theorem receive_iteration_next_length (valid createOk : List Nat → Bool)
    (input input2 : List Nat) (acc acc2 : List (List Nat × List Nat))
    (h : receive_iteration valid createOk input acc = .next input2 acc2) :
    input2.length + 20 ≤ input.length := by
  simp only [receive_iteration] at h
  split at h
  · exact LoopStep.noConfusion h
  · rename_i m r1 h4
    have l4 := readBytes_length _ _ _ _ h4
    split at h
    · exact LoopStep.noConfusion h
    · exact LoopStep.noConfusion h
    · split at h
      · exact LoopStep.noConfusion h
      · rename_i szb r2 h8
        have l8 := readBytes_length _ _ _ _ h8
        split at h
        · exact LoopStep.noConfusion h
        · exact LoopStep.noConfusion h
        · rename_i fname r3 hs
          have ls := receive_string_length _ _ _ _ hs
          split at h
          · simp only [LoopStep.next.injEq] at h
            obtain ⟨h1, -⟩ := h
            subst h1
            omega
          · split at h
            · exact LoopStep.noConfusion h
            · rename_i dataBytes r4 hp
              have lp := readBytes_length _ _ _ _ hp
              simp only [LoopStep.next.injEq] at h
              obtain ⟨h1, -⟩ := h
              subst h1
              omega

/-- The iteration bound of receive_loop is irrelevant as soon as it
exceeds the input length: any two sufficient bounds give the same run. -/
theorem receive_loop_go_fuel (valid createOk : List Nat → Bool) :
    ∀ (fuel fuel' : Nat) (input : List Nat)
      (acc : List (List Nat × List Nat)),
      input.length < fuel → input.length < fuel' →
      receive_loop_go valid createOk fuel input acc =
        receive_loop_go valid createOk fuel' input acc := by
  intro fuel
  induction fuel with
  | zero => intro fuel' input acc h _; exact absurd h (by omega)
  | succ fuel ih =>
    intro fuel' input acc h h'
    cases fuel' with
    | zero => exact absurd h' (by omega)
    | succ fuel2 =>
      simp only [receive_loop_go]
      cases hit : receive_iteration valid createOk input acc with
      | stop r => rfl
      | next input2 acc2 =>
        have hl := receive_iteration_next_length _ _ _ _ _ _ hit
        exact ih fuel2 input2 acc2 (by omega) (by omega)

/-- Witness for c6_marker_cases: four zero bytes are not a valid marker,
so the loop aborts with invalid protocol and reads nothing further. -/
theorem c6_marker_cases_witness :
    classify_marker [0, 0, 0, 0] = .isBad ∧
      receive_loop (fun _ => true) (fun _ => true) ([0, 0, 0, 0] ++ [9]) [] =
        ([], .fatal .invalidProtocol, [9]) :=
  ⟨(c6_marker_cases.1 [0, 0, 0, 0]).2.2 (by decide) (by decide),
   c6_marker_cases.2.2 (fun _ => true) (fun _ => true) [0, 0, 0, 0] [9] []
     (by decide) (by decide) (by decide)⟩

/-- C7: a file whose offer is answered with DISAGREE contributes exactly
its marker, size and name to the wire, zero payload bytes, and the loop
proceeds to the remaining files; an empty file list sends MSG_END at once;
and every session the sender completes ends with the MSG_END marker. -/
theorem c7_sender_skip_and_end :
    (∀ (f : OfferedFile) (rest : List (OfferedFile × Bool)),
      send_session ((f, false) :: rest) =
        (MSG_FILE ++ send_u64 f.filesize ++ send_string f.name) ++
          send_session rest) ∧
    send_session [] = MSG_END ∧
    ∀ l : List (OfferedFile × Bool), ∃ p, send_session l = p ++ MSG_END := by
  refine ⟨?_, rfl, ?_⟩
  · intro f rest
    simp [send_session, send_one_file, List.append_assoc]
  · intro l
    induction l with
    | nil => exact ⟨[], rfl⟩
    | cons fa rest ih =>
      obtain ⟨p, hp⟩ := ih
      obtain ⟨f, a⟩ := fa
      exact ⟨send_one_file f a ++ p, by simp [send_session, hp]⟩

/-- C9 as stated is false in one detail: a handshake answer that is
neither MSG_AGREE nor MSG_DISAGREE is fatal, but with the invalid-protocol
error raised inside check_agreement, not the no-server-found error the
claim names for every non-AGREE answer.  Eight zero bytes witness it:
the session dies with invalidProtocol, which is not noServerFound. -/
theorem c9_handshake_counterexample :
    receive_session (fun _ => true) (fun _ => true)
        [0, 0, 0, 0, 0, 0, 0, 0] =
      ([], .fatal .invalidProtocol, []) ∧
      SessionEnd.fatal .invalidProtocol ≠ SessionEnd.fatal .noServerFound := by
  decide

/-- C9 amended: any handshake answer other than MSG_AGREE terminates the
receiver fatally before any marker is read or file is created, with the
no-server-found error when the answer is MSG_DISAGREE and the
invalid-protocol error otherwise; the rest of the stream is untouched. -/
theorem c9_amended (valid createOk : List Nat → Bool) (ans rest : List Nat)
    (h8 : ans.length = 8) (hne : ans ≠ MSG_AGREE) :
    receive_session valid createOk (ans ++ rest) =
      ([], .fatal (if ans = MSG_DISAGREE then ErrMsg.noServerFound
                   else ErrMsg.invalidProtocol), rest) := by
  have hr : readBytes 8 (ans ++ rest) = some (ans, rest) :=
    readBytes_append _ _ _ h8
  have hA : ¬compare_byte_array ans MSG_AGREE = true :=
    fun h => hne ((compare_byte_array_iff _ _).mp h)
  by_cases hd : ans = MSG_DISAGREE
  · subst hd
    have hca : check_agreement MSG_DISAGREE = .ok false := by rfl
    simp [receive_session, hr, hca]
  · have hD : ¬compare_byte_array ans MSG_DISAGREE = true :=
      fun h => hd ((compare_byte_array_iff _ _).mp h)
    have hca : check_agreement ans = .error .invalidProtocol := by
      unfold check_agreement
      rw [if_neg hA, if_neg hD]
    simp [receive_session, hr, hca, hd]

/-- Witness for c9_amended at the concrete MSG_DISAGREE answer. -/
theorem c9_amended_witness :
    MSG_DISAGREE.length = 8 ∧ MSG_DISAGREE ≠ MSG_AGREE ∧
      receive_session (fun _ => true) (fun _ => true) (MSG_DISAGREE ++ []) =
        ([], .fatal .noServerFound, []) := by
  refine ⟨by decide, by decide, ?_⟩
  have h := c9_amended (fun _ => true) (fun _ => true) MSG_DISAGREE []
    (by decide) (by decide)
  simpa using h

end Netcp
